import Mathlib

/-!
Verification of the shared core of the gh-pipeline-agents repository: the
schema-directed reconciliation of LLM output (the per-task
`parse_*_output` functions of the three agents, together with the
reconciliation engine they delegate to) and the task dispatch router
(the identical `handle_message` method of
`GithubActionsErrorAnalyzerAgent`, `GithubActionsErrorCollectorAgent`
and `GithubActionsErrorRemediatorAgent`).

JSON values are modelled by the inductive `Json`; Python's `json.loads`
and `json.dumps` are modelled by `jsonParse` and `jsonSerialize`.
Python runtime values that can appear in messages are modelled by
`PyVal`: a JSON-able value or a pydantic model instance (represented by
its class name and its `model_dump()` data).
-/

inductive Json where
  | null : Json
  | bool (b : Bool) : Json
  | num (m : Int) (e : Nat) : Json
  | str (s : String) : Json
  | arr (elems : List Json) : Json
  | obj (fields : List (String × Json)) : Json

/-- First-match association lookup in a JSON object's field list
(Python dicts have unique keys, for which first match = the match). -/
def lookupField : List (String × Json) → String → Option Json
  | [], _ => none
  | (k, v) :: tl, name => if k = name then some v else lookupField tl name

/-- Insert-or-overwrite for object fields: Python dict assignment keeps
the original position of an existing key and overwrites its value
(`json.loads` gives later duplicate keys' values at the first position). -/
def setOrAdd : List (String × Json) → String → Json → List (String × Json)
  | [], k, v => [(k, v)]
  | (k0, v0) :: tl, k, v =>
      if k0 = k then (k0, v) :: tl else (k0, v0) :: setOrAdd tl k v

/-! ## Model of Python `json.loads` (strict JSON parsing)

The agents call `json.loads` on string responses
(`agent.py`, `parse_*_output`, the `isinstance(response, str)` branch).
`jsonParse` models its grammar: whitespace, `null`/`true`/`false`,
numbers (integer, fraction, exponent; represented exactly as a decimal
mantissa and a negative power of ten, so no floating point is involved),
strings with the standard escapes (`\uXXXX` taken as a single code
point), arrays and objects (duplicate keys: last value wins, as in
Python). Python's non-standard acceptance of `NaN`/`Infinity` is not
modelled. Recursion is fuelled; `jsonParse` supplies fuel that is ample
for its input length. -/

def isWsChar (c : Char) : Bool :=
  c = ' ' || c = '\t' || c = '\n' || c = '\r'

def skipWs : List Char → List Char
  | [] => []
  | c :: tl => if isWsChar c then skipWs tl else c :: tl

def digitsToNat (ds : List Char) : Nat :=
  ds.foldl (fun a c => a * 10 + (c.toNat - 48)) 0

def splitDigits (cs : List Char) : List Char × List Char :=
  (cs.takeWhile Char.isDigit, cs.dropWhile Char.isDigit)

def mkNum (neg : Bool) (ip fp : List Char) (e10 : Int) : Json :=
  let m0 : Int := Int.ofNat (digitsToNat (ip ++ fp))
  let m : Int := if neg then -m0 else m0
  let e : Int := e10 - Int.ofNat fp.length
  if 0 ≤ e then Json.num (m * 10 ^ e.toNat) 0 else Json.num m (-e).toNat

def parseExpPart (neg : Bool) (ip fp : List Char) (cs : List Char) :
    Option (Json × List Char) :=
  match cs with
  | 'e' :: tl =>
      match tl with
      | '+' :: r =>
          let (ed, r2) := splitDigits r
          if ed = [] then none
          else some (mkNum neg ip fp (Int.ofNat (digitsToNat ed)), r2)
      | '-' :: r =>
          let (ed, r2) := splitDigits r
          if ed = [] then none
          else some (mkNum neg ip fp (-Int.ofNat (digitsToNat ed)), r2)
      | _ =>
          let (ed, r2) := splitDigits tl
          if ed = [] then none
          else some (mkNum neg ip fp (Int.ofNat (digitsToNat ed)), r2)
  | 'E' :: tl =>
      match tl with
      | '+' :: r =>
          let (ed, r2) := splitDigits r
          if ed = [] then none
          else some (mkNum neg ip fp (Int.ofNat (digitsToNat ed)), r2)
      | '-' :: r =>
          let (ed, r2) := splitDigits r
          if ed = [] then none
          else some (mkNum neg ip fp (-Int.ofNat (digitsToNat ed)), r2)
      | _ =>
          let (ed, r2) := splitDigits tl
          if ed = [] then none
          else some (mkNum neg ip fp (Int.ofNat (digitsToNat ed)), r2)
  | _ => some (mkNum neg ip fp 0, cs)

def parseNumberAux (cs : List Char) : Option (Json × List Char) :=
  let (neg, cs1) := match cs with | '-' :: tl => (true, tl) | _ => (false, cs)
  let (ip, cs2) := splitDigits cs1
  if ip = [] then none
  else if 1 < ip.length ∧ ip.head? = some '0' then none
  else
    match cs2 with
    | '.' :: tl =>
        let (fp, cs3) := splitDigits tl
        if fp = [] then none else parseExpPart neg ip fp cs3
    | _ => parseExpPart neg ip [] cs2

def hexDigitVal (c : Char) : Option Nat :=
  if c.isDigit then some (c.toNat - 48)
  else if 'a' ≤ c ∧ c ≤ 'f' then some (c.toNat - 87)
  else if 'A' ≤ c ∧ c ≤ 'F' then some (c.toNat - 55)
  else none

def parseStrBody : Nat → List Char → List Char → Option (String × List Char)
  | 0, _, _ => none
  | _ + 1, acc, '"' :: tl => some (String.mk acc.reverse, tl)
  | fuel + 1, acc, '\\' :: tl =>
      match tl with
      | [] => none
      | c :: tl2 =>
          if c = '"' then parseStrBody fuel ('"' :: acc) tl2
          else if c = '\\' then parseStrBody fuel ('\\' :: acc) tl2
          else if c = '/' then parseStrBody fuel ('/' :: acc) tl2
          else if c = 'b' then parseStrBody fuel ('\x08' :: acc) tl2
          else if c = 'f' then parseStrBody fuel ('\x0c' :: acc) tl2
          else if c = 'n' then parseStrBody fuel ('\n' :: acc) tl2
          else if c = 'r' then parseStrBody fuel ('\x0d' :: acc) tl2
          else if c = 't' then parseStrBody fuel ('\t' :: acc) tl2
          else if c = 'u' then
            match tl2 with
            | h1 :: h2 :: h3 :: h4 :: tl3 =>
                match hexDigitVal h1, hexDigitVal h2, hexDigitVal h3, hexDigitVal h4 with
                | some a, some b, some c2, some d =>
                    parseStrBody fuel
                      (Char.ofNat (((a * 16 + b) * 16 + c2) * 16 + d) :: acc) tl3
                | _, _, _, _ => none
            | _ => none
          else none
  | fuel + 1, acc, c :: tl =>
      if c.toNat < 32 then none else parseStrBody fuel (c :: acc) tl
  | _, _, [] => none

mutual
def parseVal : Nat → List Char → Option (Json × List Char)
  | 0, _ => none
  | fuel + 1, cs =>
      match cs with
      | 'n' :: 'u' :: 'l' :: 'l' :: tl => some (Json.null, tl)
      | 't' :: 'r' :: 'u' :: 'e' :: tl => some (Json.bool true, tl)
      | 'f' :: 'a' :: 'l' :: 's' :: 'e' :: tl => some (Json.bool false, tl)
      | '"' :: tl =>
          match parseStrBody (tl.length + 1) [] tl with
          | some (s, r) => some (Json.str s, r)
          | none => none
      | '\x7b' :: tl =>
          match skipWs tl with
          | '\x7d' :: tl2 => some (Json.obj [], tl2)
          | cs2 => parseObjMembers fuel cs2 []
      | '[' :: tl =>
          match skipWs tl with
          | ']' :: tl2 => some (Json.arr [], tl2)
          | cs2 => parseArrMembers fuel cs2 []
      | '-' :: _ => parseNumberAux cs
      | c :: _ => if c.isDigit then parseNumberAux cs else none
      | [] => none

def parseObjMembers : Nat → List Char → List (String × Json) →
    Option (Json × List Char)
  | 0, _, _ => none
  | fuel + 1, cs, acc =>
      match cs with
      | '"' :: tl =>
          match parseStrBody (tl.length + 1) [] tl with
          | some (key, r1) =>
              match skipWs r1 with
              | ':' :: r2 =>
                  match parseVal fuel (skipWs r2) with
                  | some (v, r3) =>
                      match skipWs r3 with
                      | ',' :: r4 => parseObjMembers fuel (skipWs r4) (setOrAdd acc key v)
                      | '\x7d' :: r4 => some (Json.obj (setOrAdd acc key v), r4)
                      | _ => none
                  | none => none
              | _ => none
          | none => none
      | _ => none

def parseArrMembers : Nat → List Char → List Json → Option (Json × List Char)
  | 0, _, _ => none
  | fuel + 1, cs, acc =>
      match parseVal fuel cs with
      | some (v, r1) =>
          match skipWs r1 with
          | ',' :: r2 => parseArrMembers fuel (skipWs r2) (acc ++ [v])
          | ']' :: r2 => some (Json.arr (acc ++ [v]), r2)
          | _ => none
      | none => none
end

/-- Model of Python `json.loads`: `some` the parsed value for a valid
JSON document, `none` when parsing raises `json.JSONDecodeError`.
The fuel `4 * length + 16` strictly dominates the number of recursive
steps, each of which consumes input. -/
def jsonParse (s : String) : Option Json :=
  match parseVal (4 * s.length + 16) (skipWs s.data) with
  | some (v, rest) => if skipWs rest = [] then some v else none
  | none => none

/-! ## Model of Python `json.dumps`

Used only by the collector agent's `handle_message`, which returns
`json.dumps(result.model_dump())` / `json.dumps(result)` on success
(`github-actions-error-collector/agent.py`, lines 419-423). Default
separators `", "` and `": "`, `ensure_ascii` escaping. Non-integer
numbers are emitted in mantissa/exponent form (an approximation of
CPython float repr; no value in this development serializes one).
Recursion is fuelled; the fuel bounds only the nesting depth. -/

def hexDigitChar (n : Nat) : Char :=
  if n < 10 then Char.ofNat (48 + n) else Char.ofNat (87 + n)

def hex4 (n : Nat) : String :=
  String.mk [hexDigitChar (n / 4096 % 16), hexDigitChar (n / 256 % 16),
    hexDigitChar (n / 16 % 16), hexDigitChar (n % 16)]

def escapeChar (c : Char) : String :=
  if c = '"' then "\\\""
  else if c = '\\' then "\\\\"
  else if c = '\n' then "\\n"
  else if c = '\x0d' then "\\r"
  else if c = '\t' then "\\t"
  else if c = '\x08' then "\\b"
  else if c = '\x0c' then "\\f"
  else if c.toNat < 32 ∨ 126 < c.toNat then "\\u" ++ hex4 c.toNat
  else String.mk [c]

def encStr (s : String) : String :=
  "\"" ++ String.join (s.data.map escapeChar) ++ "\""

def serFuel : Nat → Json → String
  | _, .null => "null"
  | _, .bool true => "true"
  | _, .bool false => "false"
  | _, .num m 0 => toString m
  | _, .num m (e + 1) => toString m ++ "e-" ++ toString (e + 1)
  | _, .str s => encStr s
  | 0, .arr _ => ""
  | 0, .obj _ => ""
  | fuel + 1, .arr els =>
      "[" ++ String.intercalate ", " (els.map (serFuel fuel)) ++ "]"
  | fuel + 1, .obj fs =>
      "\x7b" ++
        String.intercalate ", "
          (fs.map (fun kv => encStr kv.1 ++ ": " ++ serFuel fuel kv.2)) ++
        "\x7d"

def jsonSerialize (j : Json) : String := serFuel 1000 j

/-! ## Schema Model and Reconciliation Engine

The reconciliation engine itself lives in the external `dacp` package
(`parse_with_fallback`), which is not part of this repository's source.

Modelled from the spec: `SchemaNode` follows spec section 3 (kind,
required flag, default value, children for objects, element schema for
arrays, allowed values for enums), and `reconcileF` follows the spec
section 4.1 algorithm, with the missing `dacp.parse_with_fallback`
behaviour taken from the spec's words:
  - an object child that is present with the expected kind (after
    lenient coercion) is recursed into; an absent or kind-mismatched
    child falls back to its default when one exists, otherwise fails
    with `MissingRequiredField(path)` when required, otherwise becomes
    `null` (the pydantic representation of an absent optional field);
  - array elements are reconciled independently; a failed element
    degrades to the element schema's default when available and is
    otherwise skipped;
  - enum values match `allowed_values` case-insensitively, kept as
    written; a non-member is treated as absent;
  - primitive coercions: canonical integer literal string to integer,
    and `"true"`/`"false"` (case-insensitive) to boolean; a failed
    coercion is treated as absent;
  - input fields with no schema entry are dropped.
The per-task literal `defaults` dictionaries of the `parse_*_output`
functions are attached to the schema as the nodes' default values,
mirrored onto nested children exactly as the dictionaries nest. -/

mutual
inductive SchemaNode where
  | sStr (required : Bool) (default : Option Json)
  | sInt (required : Bool) (default : Option Json)
  | sBool (required : Bool) (default : Option Json)
  | sEnum (required : Bool) (default : Option Json) (allowed : List String)
  | sObj (required : Bool) (default : Option Json) (children : SchemaFields)
  | sArr (required : Bool) (default : Option Json) (elem : SchemaNode)
inductive SchemaFields where
  | fnil : SchemaFields
  | fcons (name : String) (node : SchemaNode) (tl : SchemaFields) : SchemaFields
end

def SchemaNode.required : SchemaNode → Bool
  | .sStr r _ => r
  | .sInt r _ => r
  | .sBool r _ => r
  | .sEnum r _ _ => r
  | .sObj r _ _ => r
  | .sArr r _ _ => r

def SchemaNode.dflt : SchemaNode → Option Json
  | .sStr _ d => d
  | .sInt _ d => d
  | .sBool _ d => d
  | .sEnum _ d _ => d
  | .sObj _ d _ => d
  | .sArr _ d _ => d

/-- Typed reconciliation failure (spec section 7). `MalformedInput` is
raised at the string-parsing layer of the `parse_*_output` wrappers and
so lives in `ParseErr` below, not here. -/
inductive RErr where
  | missingRequiredField (path : String)

/-- Dotted field paths, as in the spec's
`MissingRequiredField("analysis_result.root_cause")`. -/
def childPath (p name : String) : String :=
  if p = "" then name else p ++ "." ++ name

/-- Canonical integer literal (optionally signed decimal digits), the
string-to-integer coercion of the spec's coercion table. -/
def strToInt (s : String) : Option Int :=
  match s.data with
  | [] => none
  | '-' :: tl => if tl ≠ [] ∧ tl.all Char.isDigit
      then some (-Int.ofNat (digitsToNat tl)) else none
  | cs => if cs.all Char.isDigit then some (Int.ofNat (digitsToNat cs)) else none

def lowerMem (s : String) (allowed : List String) : Bool :=
  allowed.any (fun a => a.toLower = s.toLower)

/-- Lenient coercion of a present primitive value to a schema kind;
`none` means the value is treated as absent (spec section 4.1, step 2).
Object and array kinds are handled structurally in `reconcileF`. -/
def coercePrim (S : SchemaNode) (v : Json) : Option Json :=
  match S, v with
  | .sStr _ _, .str s => some (.str s)
  | .sInt _ _, .num m e => if e = 0 then some (.num m 0) else none
  | .sInt _ _, .str s => (strToInt s).map (fun m => Json.num m 0)
  | .sBool _ _, .bool b => some (.bool b)
  | .sBool _ _, .str s =>
      if s.toLower = "true" then some (.bool true)
      else if s.toLower = "false" then some (.bool false) else none
  | .sEnum _ _ allowed, .str s => if lowerMem s allowed then some (.str s) else none
  | _, _ => none

/-- Outcome for a field whose value is absent (or treated as absent):
default if available, else failure when required, else `null`. -/
def absentCase (p : String) (S : SchemaNode) : Except RErr Json :=
  match S.dflt with
  | some d => .ok d
  | none => if S.required then .error (.missingRequiredField p) else .ok .null

/-- Independent reconciliation of array elements: a failed element
degrades to the element default when available, otherwise it is
skipped (spec section 4.1, step 2, array case). -/
def mapElems (f : Json → Except RErr Json) (d : Option Json) : List Json → List Json
  | [] => []
  | el :: tl =>
      match f el with
      | .ok v => v :: mapElems f d tl
      | .error _ =>
          match d with
          | some dv => dv :: mapElems f d tl
          | none => mapElems f d tl

mutual
/-- Reconcile the (possibly absent) value `v?` found at path `p`
against schema node `S` (spec section 4.1, step 2). -/
def reconcileF (p : String) (S : SchemaNode) (v? : Option Json) : Except RErr Json :=
  match S, v? with
  | .sObj _ _ children, some (Json.obj fields) =>
      match reconcileFields p children fields with
      | .error e => .error e
      | .ok fs => .ok (.obj fs)
  | .sArr _ _ elem, some (Json.arr els) =>
      .ok (.arr (mapElems (fun el => reconcileF p elem (some el)) elem.dflt els))
  | _, none => absentCase p S
  | _, some v =>
      match coercePrim S v with
      | some v2 => .ok v2
      | none => absentCase p S

/-- Walk the schema children in declaration order; the output object
carries exactly the schema's fields (extra input fields are dropped,
spec section 4.1, step 3). -/
def reconcileFields (p : String) (cs : SchemaFields) (fields : List (String × Json)) :
    Except RErr (List (String × Json)) :=
  match cs with
  | .fnil => .ok []
  | .fcons name node tl =>
      match reconcileF (childPath p name) node (lookupField fields name) with
      | .error e => .error e
      | .ok v =>
          match reconcileFields p tl fields with
          | .error e => .error e
          | .ok rest => .ok ((name, v) :: rest)
end

/-- Spec section 4.1 contract:
`reconcile(raw, schema) -> Result<ReconciledRecord, ReconciliationError>`. -/
def reconcile (raw : Json) (S : SchemaNode) : Except RErr Json :=
  reconcileF "" S (some raw)

/-! ### Canonical values and well-formed schemas

`canonV S v` says `v` already strictly conforms to `S` (the shape of
every reconciliation output); `canonFieldV` additionally allows the
`null` that stands for an omitted optional field with no default.
`wfS` says every default in the schema strictly conforms to its node
(the spec's section 3 invariant "a node with `default` defined must
have a default whose shape matches `kind`"). -/

def isNullJ : Json → Bool
  | .null => true
  | _ => false

mutual
def canonV : SchemaNode → Json → Bool
  | .sStr _ _, .str _ => true
  | .sInt _ _, .num _ e => e == 0
  | .sBool _ _, .bool _ => true
  | .sEnum _ _ allowed, .str s => lowerMem s allowed
  | .sObj _ _ cs, .obj fields => canonFieldsV cs fields
  | .sArr _ _ elem, .arr els => canonElemsV elem els
  | _, _ => false

def canonFieldsV : SchemaFields → List (String × Json) → Bool
  | .fnil, [] => true
  | .fcons name node tl, (k, v) :: rest =>
      k == name &&
        (canonV node v || (!node.required && node.dflt.isNone && isNullJ v)) &&
        canonFieldsV tl rest
  | _, _ => false

def canonElemsV (elem : SchemaNode) : List Json → Bool
  | [] => true
  | v :: tl =>
      (canonV elem v || (!elem.required && elem.dflt.isNone && isNullJ v)) &&
        canonElemsV elem tl
end

def canonFieldV (S : SchemaNode) (v : Json) : Bool :=
  canonV S v || (!S.required && S.dflt.isNone && isNullJ v)

def dfltOkB (S : SchemaNode) : Bool :=
  match S.dflt with
  | some d => canonV S d
  | none => true

def memName (k : String) : SchemaFields → Bool
  | .fnil => false
  | .fcons n _ tl => (k == n) || memName k tl

/-- The child names of an object schema are pairwise distinct (true of
every schema in this development: pydantic model fields are unique). -/
def distinctNames : SchemaFields → Bool
  | .fnil => true
  | .fcons n _ tl => !(memName n tl) && distinctNames tl

mutual
def wfS : SchemaNode → Bool
  | .sObj r d cs => dfltOkB (.sObj r d cs) && distinctNames cs && wfFields cs
  | .sArr r d elem => dfltOkB (.sArr r d elem) && wfS elem
  | S => dfltOkB S

def wfFields : SchemaFields → Bool
  | .fnil => true
  | .fcons _ node tl => wfS node && wfFields tl
end

/-! ## Output schemas of the six tasks

Each schema is translated from the pydantic output models of the agent
sources, with the literal `defaults` dictionary of the corresponding
`parse_*_output` function attached as node defaults (mirrored onto
nested children exactly as the dictionary nests). Children appear in
class declaration order. -/

/-- `Analyze_ErrorOutputAnalysis_Result` with the nested defaults of
`parse_analyze_error_output` (analyzer `agent.py`, lines 22-29, 119-125). -/
def analysisResultFields : SchemaFields :=
  .fcons "root_cause" (.sStr true (some (.str "default_root_cause")))
  (.fcons "error_category" (.sStr true (some (.str "default_error_category")))
  (.fcons "confidence_level" (.sStr true (some (.str "default_confidence_level")))
  (.fcons "impact_assessment" (.sStr true (some (.str "default_impact_assessment")))
  .fnil)))

def analysisResultDefault : Json :=
  .obj [("root_cause", .str "default_root_cause"),
        ("error_category", .str "default_error_category"),
        ("confidence_level", .str "default_confidence_level"),
        ("impact_assessment", .str "default_impact_assessment")]

/-- `Analyze_ErrorOutputRecommended_FixesItemCode_ChangesItem`
(analyzer `agent.py`, lines 30-33). -/
def codeChangesItemSchema : SchemaNode :=
  .sObj true none
    (.fcons "file_path" (.sStr false none)
    (.fcons "suggested_change" (.sStr false none)
    (.fcons "change_type" (.sStr false none)
    .fnil)))

/-- `Analyze_ErrorOutputRecommended_FixesItem` (analyzer `agent.py`,
lines 34-46). -/
def recommendedFixItemSchema : SchemaNode :=
  .sObj true none
    (.fcons "fix_title" (.sStr true none)
    (.fcons "fix_description" (.sStr true none)
    (.fcons "fix_type" (.sStr true none)
    (.fcons "estimated_effort" (.sStr true none)
    (.fcons "code_changes" (.sArr false none codeChangesItemSchema)
    (.fcons "commands_to_run" (.sArr false none (.sStr true none))
    (.fcons "prerequisites" (.sArr false none (.sStr true none))
    .fnil)))))))

/-- `Analyze_ErrorOutputDeveloper_Message` with the nested defaults of
`parse_analyze_error_output` (analyzer `agent.py`, lines 47-59, 127-133). -/
def developerMessageFields : SchemaFields :=
  .fcons "summary" (.sStr true (some (.str "default_summary")))
  (.fcons "detailed_explanation" (.sStr true (some (.str "default_detailed_explanation")))
  (.fcons "next_steps" (.sArr true (some (.arr [])) (.sStr true none))
  (.fcons "related_documentation"
    (.sArr false (some (.arr []))
      (.sObj true none
        (.fcons "title" (.sStr false none)
        (.fcons "url" (.sStr false none)
        .fnil))))
  (.fcons "prevention_tips" (.sArr false (some (.arr [])) (.sStr true none))
  .fnil))))

def developerMessageDefault : Json :=
  .obj [("summary", .str "default_summary"),
        ("detailed_explanation", .str "default_detailed_explanation"),
        ("next_steps", .arr []),
        ("related_documentation", .arr []),
        ("prevention_tips", .arr [])]

/-- Top-level children of `Analyze_ErrorOutput` (analyzer `agent.py`,
lines 60-65) with the defaults of `parse_analyze_error_output`
(lines 119-135). -/
def analyzeErrorFields : SchemaFields :=
  .fcons "analysis_result" (.sObj true (some analysisResultDefault) analysisResultFields)
  (.fcons "recommended_fixes" (.sArr true (some (.arr [])) recommendedFixItemSchema)
  (.fcons "developer_message" (.sObj true (some developerMessageDefault) developerMessageFields)
  (.fcons "urgency_level" (.sStr true (some (.str "how_default")))
  .fnil)))

def analyzeErrorSchema : SchemaNode := .sObj true none analyzeErrorFields

/-- `Generate_Pr_CommentOutput` (analyzer `agent.py`, lines 67-75) with
the defaults of `parse_generate_pr_comment_output` (lines 281-288). -/
def commentMetadataDefault : Json :=
  .obj [("comment_type", .str "default_comment_type"),
        ("tags", .arr []),
        ("urgency", .str "default_urgency")]

def generatePrCommentFields : SchemaFields :=
  .fcons "pr_comment" (.sStr true (some (.str "formatted_default")))
  (.fcons "comment_metadata"
    (.sObj true (some commentMetadataDefault)
      (.fcons "comment_type" (.sStr true (some (.str "default_comment_type")))
      (.fcons "tags" (.sArr true (some (.arr [])) (.sStr true none))
      (.fcons "urgency" (.sStr true (some (.str "default_urgency")))
      .fnil))))
  .fnil)

def generatePrCommentSchema : SchemaNode := .sObj true none generatePrCommentFields

/-- `Suggest_Workflow_ImprovementsOutput` (analyzer `agent.py`,
lines 77-90) with the defaults of
`parse_suggest_workflow_improvements_output` (lines 403-407). -/
def workflowImprovementItemSchema : SchemaNode :=
  .sObj true none
    (.fcons "improvement_title" (.sStr true none)
    (.fcons "improvement_description" (.sStr true none)
    (.fcons "improvement_type" (.sStr true none)
    (.fcons "implementation_difficulty" (.sStr true none)
    (.fcons "expected_benefit" (.sStr true none)
    (.fcons "workflow_changes" (.sStr false none)
    .fnil))))))

def suggestWorkflowImprovementsFields : SchemaFields :=
  .fcons "workflow_improvements" (.sArr true (some (.arr [])) workflowImprovementItemSchema)
  (.fcons "prevention_strategies" (.sArr true (some (.arr [])) (.sStr true none))
  (.fcons "monitoring_recommendations" (.sArr true (some (.arr [])) (.sStr true none))
  .fnil))

def suggestWorkflowImprovementsSchema : SchemaNode :=
  .sObj true none suggestWorkflowImprovementsFields

/-- `Collect_ErrorsOutput` (collector `agent.py`, lines 22-52) with the
defaults of `parse_collect_errors_output` (lines 96-121). -/
def errorSummaryDefault : Json :=
  .obj [("primary_error", .str "default_primary_error"),
        ("error_type", .str "default_error_type"),
        ("severity", .str "default_severity"),
        ("affected_files", .arr []),
        ("stack_trace", .str "default_stack_trace"),
        ("error_context", .str "default_error_context"),
        ("suggested_keywords", .arr [])]

def jobContextDefault : Json :=
  .obj [("job_name", .str "default_job_name"),
        ("workflow_name", .str "default_workflow_name"),
        ("repository", .str "default_repository"),
        ("branch", .str "default_branch"),
        ("commit_sha", .str "default_commit_sha"),
        ("pr_number", .num 0 0),
        ("failed_step", .str "default_failed_step")]

def logStatisticsDefault : Json :=
  .obj [("total_lines", .num 0 0),
        ("error_lines", .num 0 0),
        ("warning_lines", .num 0 0),
        ("duration_estimate", .str "default_duration_estimate")]

def collectErrorsFields : SchemaFields :=
  .fcons "error_summary"
    (.sObj true (some errorSummaryDefault)
      (.fcons "primary_error" (.sStr true (some (.str "default_primary_error")))
      (.fcons "error_type" (.sStr true (some (.str "default_error_type")))
      (.fcons "severity" (.sStr true (some (.str "default_severity")))
      (.fcons "affected_files" (.sArr false (some (.arr [])) (.sStr true none))
      (.fcons "stack_trace" (.sStr false (some (.str "default_stack_trace")))
      (.fcons "error_context" (.sStr false (some (.str "default_error_context")))
      (.fcons "suggested_keywords" (.sArr false (some (.arr [])) (.sStr true none))
      .fnil))))))))
  (.fcons "job_context"
    (.sObj true (some jobContextDefault)
      (.fcons "job_name" (.sStr true (some (.str "default_job_name")))
      (.fcons "workflow_name" (.sStr true (some (.str "default_workflow_name")))
      (.fcons "repository" (.sStr true (some (.str "default_repository")))
      (.fcons "branch" (.sStr false (some (.str "default_branch")))
      (.fcons "commit_sha" (.sStr false (some (.str "default_commit_sha")))
      (.fcons "pr_number" (.sInt false (some (.num 0 0)))
      (.fcons "failed_step" (.sStr false (some (.str "default_failed_step")))
      .fnil))))))))
  (.fcons "log_statistics"
    (.sObj true (some logStatisticsDefault)
      (.fcons "total_lines" (.sInt true (some (.num 0 0)))
      (.fcons "error_lines" (.sInt true (some (.num 0 0)))
      (.fcons "warning_lines" (.sInt true (some (.num 0 0)))
      (.fcons "duration_estimate" (.sStr false (some (.str "default_duration_estimate")))
      .fnil)))))
  .fnil))

def collectErrorsSchema : SchemaNode := .sObj true none collectErrorsFields

/-- `Extract_Build_InfoOutput` (collector `agent.py`, lines 54-67) with
the defaults of `parse_extract_build_info_output` (lines 257-267). -/
def environmentInfoDefault : Json :=
  .obj [("os", .str "default_os"),
        ("node_version", .str "default_node_version"),
        ("python_version", .str "default_python_version"),
        ("java_version", .str "default_java_version")]

def extractBuildInfoFields : SchemaFields :=
  .fcons "build_commands" (.sArr true (some (.arr [])) (.sStr true none))
  (.fcons "dependencies" (.sArr true (some (.arr [])) (.sStr true none))
  (.fcons "build_artifacts" (.sArr false (some (.arr [])) (.sStr true none))
  (.fcons "environment_info"
    (.sObj false (some environmentInfoDefault)
      (.fcons "os" (.sStr false (some (.str "default_os")))
      (.fcons "node_version" (.sStr false (some (.str "default_node_version")))
      (.fcons "python_version" (.sStr false (some (.str "default_python_version")))
      (.fcons "java_version" (.sStr false (some (.str "default_java_version")))
      .fnil)))))
  .fnil)))

def extractBuildInfoSchema : SchemaNode := .sObj true none extractBuildInfoFields

/-- `Propose_RemediationOutput` (remediator `agent.py`, lines 22-28)
with the defaults of `parse_propose_remediation_output` (lines 57-61). -/
def proposeRemediationFields : SchemaFields :=
  .fcons "proposed_diff" (.sStr true (some (.str "unified_default")))
  (.fcons "files_to_change" (.sArr true (some (.arr [])) (.sStr true none))
  (.fcons "rationale" (.sStr true (some (.str "explanation_default")))
  .fnil))

def proposeRemediationSchema : SchemaNode := .sObj true none proposeRemediationFields

/-! ## Python runtime values and the `parse_*_output` wrappers -/

/-- A Python value as it can occur in an agent message or a handler
result: a JSON-able value (`None`, `bool`, number, `str`, `list`,
`dict`), or a pydantic model instance, represented by its class name
and its `model_dump()` data. -/
inductive PyVal where
  | val (j : Json)
  | model (cls : String) (data : Json)

/-- Failure of a `parse_*_output` function (a raised `ValueError`):
`malformedInput` for "Failed to parse JSON response: ..." thrown by a
`json.loads` failure, `reconcileFailed` for "Error parsing response
with DACP parser: ..." wrapping a reconciliation failure. -/
inductive ParseErr where
  | malformedInput
  | reconcileFailed (e : RErr)

/-- Common shape of the six `parse_*_output` functions: an instance of
the target model class is returned unchanged (`isinstance` early
return); a `str` is parsed as strict JSON, failure raising the
malformed-input `ValueError` at once; everything else is reconciled
against the task schema. A model instance of a different class reaches
`parse_with_fallback`; modelled from the spec as reconciling its
`model_dump()` data. -/
def parseOutputModel (cls : String) (schema : SchemaNode) (response : PyVal) :
    Except ParseErr Json :=
  match response with
  | .model c j =>
      if c = cls then .ok j
      else
        match reconcile j schema with
        | .ok v => .ok v
        | .error e => .error (.reconcileFailed e)
  | .val (.str s) =>
      match jsonParse s with
      | none => .error .malformedInput
      | some j =>
          match reconcile j schema with
          | .ok v => .ok v
          | .error e => .error (.reconcileFailed e)
  | .val j =>
      match reconcile j schema with
      | .ok v => .ok v
      | .error e => .error (.reconcileFailed e)

def parse_analyze_error_output : PyVal → Except ParseErr Json :=
  parseOutputModel "Analyze_ErrorOutput" analyzeErrorSchema

def parse_generate_pr_comment_output : PyVal → Except ParseErr Json :=
  parseOutputModel "Generate_Pr_CommentOutput" generatePrCommentSchema

def parse_suggest_workflow_improvements_output : PyVal → Except ParseErr Json :=
  parseOutputModel "Suggest_Workflow_ImprovementsOutput" suggestWorkflowImprovementsSchema

def parse_collect_errors_output : PyVal → Except ParseErr Json :=
  parseOutputModel "Collect_ErrorsOutput" collectErrorsSchema

def parse_extract_build_info_output : PyVal → Except ParseErr Json :=
  parseOutputModel "Extract_Build_InfoOutput" extractBuildInfoSchema

def parse_propose_remediation_output : PyVal → Except ParseErr Json :=
  parseOutputModel "Propose_RemediationOutput" proposeRemediationSchema

/-! ## Task dispatch: the `handle_message` method

The three agent classes implement `handle_message` identically
(analyzer lines 538-571, collector lines 395-428, remediator lines
186-219), differing only in which methods/attributes the agent object
carries and in how the collector wraps a successful result
(`json.dumps`). The model below mirrors the Python control flow:

1. `task = message.get("task")`; `if not task:` returns the
   missing-field envelope (absent key or any falsy value).
2. `method_name = task.replace("-", "_")` — an `AttributeError` from a
   truthy non-string task propagates uncaught, modelled as `PyFault`.
3. `hasattr(self, method_name)` — lookup among the agent object's
   attributes (task methods, helper methods, and data attributes set
   in `__init__`; attributes inherited from the external `dacp.Agent`
   base class are not modelled). A miss returns the unknown-task
   envelope.
4. Inside `try`: the attribute is called with all non-`task` message
   entries as keyword arguments. Calling a non-callable data attribute
   or binding mismatched keyword arguments raises `TypeError`, caught
   and wrapped as the invalid-parameters envelope. The resolved method
   body itself (prompt rendering, the external LLM call, and the
   `parse_*_output` reconciliation) is modelled by an oracle
   `TaskOracle`, whose exceptions are likewise caught: `TypeError` maps
   to the invalid-parameters envelope, anything else to the
   "Error executing task" envelope.
5. A result with `model_dump` is dumped; the analyzer and remediator
   return the mapping, the collector `json.dumps` it to a string.

Python `TypeError` message texts are reproduced for the non-callable
case and approximated (first offending key, singular form) for keyword
binding. -/

/-- `task.replace("-", "_")`: every hyphen becomes an underscore (the
pattern is a single character, so `str.replace` is character-wise). -/
def normalizeTask (t : String) : String :=
  String.mk (t.data.map (fun c => if c = '-' then '_' else c))

/-- Python truthiness of a JSON-able value (`if not task`). -/
def jsonTruthy : Json → Bool
  | .null => false
  | .bool b => b
  | .num m _ => m != 0
  | .str s => s != ""
  | .arr els => !els.isEmpty
  | .obj fs => !fs.isEmpty

def pyTruthyV : PyVal → Bool
  | .val j => jsonTruthy j
  | .model _ _ => true

/-- Python type name of a value, for `TypeError` texts. -/
def pyTypeName : PyVal → String
  | .val .null => "NoneType"
  | .val (.bool _) => "bool"
  | .val (.num _ 0) => "int"
  | .val (.num _ _) => "float"
  | .val (.str _) => "str"
  | .val (.arr _) => "list"
  | .val (.obj _) => "dict"
  | .model cls _ => cls

/-- Quote a Python identifier or type name with single quotes (written
as escapes) for embedding in `TypeError` texts. -/
def pyQuote (s : String) : String := "\x27" ++ s ++ "\x27"

/-- An attribute of an agent object: either a bound method with its
declared parameter names (no defaults; `memory_summary` is filled
inside the wrapped module function, not at the method boundary), or a
non-callable data attribute with its Python type name. -/
inductive CallKind where
  | method (params : List String)
  | value (tyName : String)

structure AgentAttr where
  name : String
  callKind : CallKind

def findAttr (attrs : List AgentAttr) (n : String) : Option AgentAttr :=
  attrs.find? (fun a => a.name == n)

/-- First-match lookup in a message dict (`message.get`). -/
def lookupPy : List (String × PyVal) → String → Option PyVal
  | [], _ => none
  | (k, v) :: tl, name => if k = name then some v else lookupPy tl name

/-- `{k: v for k, v in message.items() if k != "task"}`. -/
def nonTaskParams (message : List (String × PyVal)) : List (String × PyVal) :=
  message.filter (fun kv => kv.1 != "task")

/-- `TypeError` raised by CPython keyword binding of `method(**params)`
against the declared parameter list, or `none` when binding succeeds
(exactly the declared names supplied). The unexpected-keyword check
comes first, as in CPython; the message text is approximated by the
first offending name in singular form. -/
def bindingError (mname : String) (ps : List String) (argKeys : List String) :
    Option String :=
  match argKeys.find? (fun k => !ps.contains k) with
  | some k => some (mname ++ "() got an unexpected keyword argument " ++ pyQuote k)
  | none =>
      match ps.find? (fun p => !argKeys.contains p) with
      | some p =>
          some (mname ++ "() missing 1 required positional argument: " ++ pyQuote p)
      | none => none

/-- Exceptions a resolved method body can raise (all caught by the
dispatcher): `typeError` is caught by `except TypeError`, `exn` by
`except Exception` (this includes the `ValueError`s of the
`parse_*_output` reconciliation wrappers). -/
inductive BodyErr where
  | typeError (msg : String)
  | exn (msg : String)

/-- Oracle for the body of a resolved method: given the normalized
method name and the bound keyword arguments, it either returns the
method's result (for task methods, the parsed output model produced
via the external LLM collaborator) or raises. -/
def TaskOracle : Type :=
  String → List (String × PyVal) → Except BodyErr PyVal

/-- An exception that escapes `handle_message` uncaught (only possible
before the `try` block: `task.replace` on a truthy non-string task). -/
inductive PyFault where
  | attributeError (msg : String)

/-- The failure envelope `{"error": msg}`. -/
def errDict (msg : String) : PyVal :=
  .val (.obj [("error", .str msg)])

/-- `result.model_dump()` handling of the analyzer and remediator:
a pydantic model becomes its data mapping, anything else is returned
as is. -/
def wrapDict : PyVal → PyVal
  | .model _ d => .val d
  | v => v

/-- The collector's success wrapping: `json.dumps(result.model_dump())`
for a pydantic model, `json.dumps(result)` otherwise — a JSON string
either way. -/
def wrapDumps : PyVal → PyVal
  | .model _ d => .val (.str (jsonSerialize d))
  | .val j => .val (.str (jsonSerialize j))

/-- The shared `handle_message` body, parameterized by the agent's
attribute table, its success wrapping, and the method-body oracle. -/
def handleMessageModel (attrs : List AgentAttr) (wrap : PyVal → PyVal)
    (oracle : TaskOracle) (message : List (String × PyVal)) :
    Except PyFault PyVal :=
  match lookupPy message "task" with
  | none => .ok (errDict "Missing required field: task")
  | some tv =>
      if pyTruthyV tv = false then .ok (errDict "Missing required field: task")
      else
        match tv with
        | .val (.str t) =>
            let m := normalizeTask t
            match findAttr attrs m with
            | none => .ok (errDict ("Unknown task: " ++ t))
            | some a =>
                match a.callKind with
                | .value ty =>
                    .ok (errDict ("Invalid parameters for task " ++ t ++ ": " ++
                      pyQuote ty ++ " object is not callable"))
                | .method ps =>
                    let args := nonTaskParams message
                    match bindingError m ps (args.map Prod.fst) with
                    | some bmsg =>
                        .ok (errDict ("Invalid parameters for task " ++ t ++ ": " ++ bmsg))
                    | none =>
                        match oracle m args with
                        | .ok r => .ok (wrap r)
                        | .error (.typeError emsg) =>
                            .ok (errDict ("Invalid parameters for task " ++ t ++ ": " ++ emsg))
                        | .error (.exn emsg) =>
                            .ok (errDict ("Error executing task " ++ t ++ ": " ++ emsg))
        | v =>
            .error (.attributeError (pyQuote (pyTypeName v) ++
              " object has no attribute " ++ pyQuote "replace"))

/-- Attribute table of `GithubActionsErrorAnalyzerAgent`: instance
attributes set in `__init__` (lines 503-532) and the methods of the
class (lines 538-627). -/
def analyzerAttrs : List AgentAttr :=
  [⟨"agent_id", .value "str"⟩,
   ⟨"model", .value "str"⟩,
   ⟨"config", .value "dict"⟩,
   ⟨"handle_message", .method ["message"]⟩,
   ⟨"setup_logging", .method []⟩,
   ⟨"analyze_error", .method
      ["error_summary", "job_context", "log_statistics", "additional_context"]⟩,
   ⟨"generate_pr_comment", .method
      ["analysis_result", "recommended_fixes", "developer_message", "pr_number",
       "repository", "job_name", "workflow_name"]⟩,
   ⟨"suggest_workflow_improvements", .method
      ["error_analysis", "workflow_name", "repository", "recurring_patterns"]⟩]

/-- The analyzer's registered task identifiers (its task methods). -/
def analyzerTaskNames : List String :=
  ["analyze_error", "generate_pr_comment", "suggest_workflow_improvements"]

/-- Attribute table of `GithubActionsErrorCollectorAgent` (collector
`agent.py`, lines 360-478). -/
def collectorAttrs : List AgentAttr :=
  [⟨"agent_id", .value "str"⟩,
   ⟨"model", .value "str"⟩,
   ⟨"config", .value "dict"⟩,
   ⟨"handle_message", .method ["message"]⟩,
   ⟨"setup_logging", .method []⟩,
   ⟨"collect_errors", .method
      ["job_name", "workflow_name", "raw_logs", "job_step", "repository",
       "branch", "commit_sha", "pr_number"]⟩,
   ⟨"extract_build_info", .method ["raw_logs", "build_system"]⟩]

/-- Attribute table of `GithubActionsErrorRemediatorAgent` (remediator
`agent.py`, lines 150-263). -/
def remediatorAttrs : List AgentAttr :=
  [⟨"agent_id", .value "str"⟩,
   ⟨"model", .value "str"⟩,
   ⟨"config", .value "dict"⟩,
   ⟨"handle_message", .method ["message"]⟩,
   ⟨"setup_logging", .method []⟩,
   ⟨"propose_remediation", .method
      ["analysis_result", "raw_logs", "repository", "branch", "commit_sha"]⟩]

def analyzerHandleMessage : TaskOracle → List (String × PyVal) → Except PyFault PyVal :=
  handleMessageModel analyzerAttrs wrapDict

def collectorHandleMessage : TaskOracle → List (String × PyVal) → Except PyFault PyVal :=
  handleMessageModel collectorAttrs wrapDumps

def remediatorHandleMessage : TaskOracle → List (String × PyVal) → Except PyFault PyVal :=
  handleMessageModel remediatorAttrs wrapDict

/-- Is a value a Python mapping (a `dict`)? Success results of the
outbound envelope are required by the spec to be mappings. -/
def isMapping : PyVal → Bool
  | .val (.obj _) => true
  | _ => false

/-- Does `handle_message` return (without raising) a dict of the exact
shape `{"error": msg}`? -/
def isOkErrDict (msg : String) : Except PyFault PyVal → Bool
  | .ok (.val (.obj [(k, .str m)])) => k == "error" && m == msg
  | _ => false


/-! ## Reconciliation lemmas: canonical outputs and idempotence -/

theorem wfS_dfltOk (S : SchemaNode) (h : wfS S = true) : dfltOkB S = true := by
  cases S with
  | sObj r d cs =>
      simp only [wfS, Bool.and_eq_true] at h
      exact h.1.1
  | sArr r d elem =>
      simp only [wfS, Bool.and_eq_true] at h
      exact h.1
  | sStr r d => simpa only [wfS] using h
  | sInt r d => simpa only [wfS] using h
  | sBool r d => simpa only [wfS] using h
  | sEnum r d allowed => simpa only [wfS] using h

theorem coerce_canon (S : SchemaNode) (v w : Json) (h : coercePrim S v = some w) :
    canonV S w = true := by
  cases S with
  | sStr r d =>
      cases v with
      | str s =>
          simp only [coercePrim] at h
          injection h with h
          subst h
          simp [canonV]
      | null => exact absurd h (by simp [coercePrim])
      | bool b => exact absurd h (by simp [coercePrim])
      | num m e => exact absurd h (by simp [coercePrim])
      | arr els => exact absurd h (by simp [coercePrim])
      | obj fs => exact absurd h (by simp [coercePrim])
  | sInt r d =>
      cases v with
      | num m e =>
          simp only [coercePrim] at h
          split at h
          · injection h with h
            subst h
            simp [canonV]
          · exact absurd h (by simp)
      | str s =>
          simp only [coercePrim] at h
          rcases hm : strToInt s with _ | m <;> rw [hm] at h
          · exact absurd h (by simp [Option.map])
          · simp only [Option.map] at h
            injection h with h
            subst h
            simp [canonV]
      | null => exact absurd h (by simp [coercePrim])
      | bool b => exact absurd h (by simp [coercePrim])
      | arr els => exact absurd h (by simp [coercePrim])
      | obj fs => exact absurd h (by simp [coercePrim])
  | sBool r d =>
      cases v with
      | bool b =>
          simp only [coercePrim] at h
          injection h with h
          subst h
          simp [canonV]
      | str s =>
          simp only [coercePrim] at h
          split at h
          · injection h with h
            subst h
            simp [canonV]
          · split at h
            · injection h with h
              subst h
              simp [canonV]
            · exact absurd h (by simp)
      | null => exact absurd h (by simp [coercePrim])
      | num m e => exact absurd h (by simp [coercePrim])
      | arr els => exact absurd h (by simp [coercePrim])
      | obj fs => exact absurd h (by simp [coercePrim])
  | sEnum r d allowed =>
      cases v with
      | str s =>
          simp only [coercePrim] at h
          split at h
          · injection h with h
            subst h
            simp only [canonV]
            assumption
          · exact absurd h (by simp)
      | null => exact absurd h (by simp [coercePrim])
      | bool b => exact absurd h (by simp [coercePrim])
      | num m e => exact absurd h (by simp [coercePrim])
      | arr els => exact absurd h (by simp [coercePrim])
      | obj fs => exact absurd h (by simp [coercePrim])
  | sObj r d cs => cases v <;> exact absurd h (by simp [coercePrim])
  | sArr r d elem => cases v <;> exact absurd h (by simp [coercePrim])

theorem absent_canon (S : SchemaNode) (p : String) (out : Json)
    (hwf : wfS S = true) (h : absentCase p S = .ok out) : canonFieldV S out = true := by
  have hd := wfS_dfltOk S hwf
  unfold absentCase at h
  unfold dfltOkB at hd
  cases hdf : S.dflt with
  | some d =>
      rw [hdf] at h hd
      have hcd : canonV S d = true := hd
      simp only [Except.ok.injEq] at h
      subst h
      simp [canonFieldV, hcd]
  | none =>
      rw [hdf] at h
      cases hr : S.required with
      | true =>
          rw [hr] at h
          exact absurd h (by simp)
      | false =>
          rw [hr] at h
          simp only [Bool.false_eq_true, if_false, Except.ok.injEq] at h
          subst h
          simp [canonFieldV, hr, hdf, isNullJ]

theorem reconcile_null_opt (S : SchemaNode) (p : String)
    (hr : S.required = false) (hd : S.dflt = none) :
    reconcileF p S (some .null) = .ok .null := by
  cases S <;>
    simp_all [reconcileF, coercePrim, absentCase, SchemaNode.required, SchemaNode.dflt]

theorem reconcileFields_skipHead (p : String) (cs : SchemaFields) (k : String)
    (v : Json) (fields : List (String × Json))
    (hk : memName k cs = false) :
    reconcileFields p cs ((k, v) :: fields) = reconcileFields p cs fields := by
  cases cs with
  | fnil => rfl
  | fcons n node tl =>
      simp only [memName, Bool.or_eq_false_iff, beq_eq_false_iff_ne] at hk
      obtain ⟨hne, htl⟩ := hk
      have hlook : lookupField ((k, v) :: fields) n = lookupField fields n := by
        simp only [lookupField]
        rw [if_neg hne]
      rw [reconcileFields, reconcileFields, hlook,
        reconcileFields_skipHead p tl k v fields htl]

mutual
theorem canon_fix (S : SchemaNode) (p : String) (v : Json)
    (hwf : wfS S = true) (h : canonV S v = true) :
    reconcileF p S (some v) = .ok v := by
  cases S with
  | sStr r d => cases v <;> simp_all [canonV, reconcileF, coercePrim]
  | sInt r d => cases v <;> simp_all [canonV, reconcileF, coercePrim]
  | sBool r d => cases v <;> simp_all [canonV, reconcileF, coercePrim]
  | sEnum r d allowed => cases v <;> simp_all [canonV, reconcileF, coercePrim]
  | sObj r d cs =>
      cases v with
      | obj fields =>
          simp only [canonV] at h
          simp only [wfS, Bool.and_eq_true] at hwf
          obtain ⟨⟨_, hdist⟩, hwfF⟩ := hwf
          simp only [reconcileF, canonFields_fix cs p fields hdist hwfF h]
      | null => simp [canonV] at h
      | bool b => simp [canonV] at h
      | num m e => simp [canonV] at h
      | str s => simp [canonV] at h
      | arr els => simp [canonV] at h
  | sArr r d elem =>
      cases v with
      | arr els =>
          simp only [canonV] at h
          simp only [wfS, Bool.and_eq_true] at hwf
          simp only [reconcileF, canonElems_fix elem p els hwf.2 h]
      | null => simp [canonV] at h
      | bool b => simp [canonV] at h
      | num m e => simp [canonV] at h
      | str s => simp [canonV] at h
      | obj fs => simp [canonV] at h
termination_by (sizeOf S, sizeOf v)

theorem canonFields_fix (cs : SchemaFields) (p : String)
    (fields : List (String × Json)) (hdist : distinctNames cs = true)
    (hwf : wfFields cs = true) (h : canonFieldsV cs fields = true) :
    reconcileFields p cs fields = .ok fields := by
  cases cs with
  | fnil => cases fields <;> simp_all [canonFieldsV, reconcileFields]
  | fcons name node tl =>
      cases fields with
      | nil => simp [canonFieldsV] at h
      | cons kv rest =>
          obtain ⟨k, v⟩ := kv
          simp only [canonFieldsV, Bool.and_eq_true, beq_iff_eq] at h
          obtain ⟨⟨hk, hcv⟩, hrest⟩ := h
          subst hk
          simp only [distinctNames, Bool.and_eq_true] at hdist
          obtain ⟨hnotin, hdtl⟩ := hdist
          simp only [wfFields, Bool.and_eq_true] at hwf
          obtain ⟨hwfn, hwft⟩ := hwf
          have hlook : lookupField ((k, v) :: rest) k = some v := by
            simp [lookupField]
          have hhead : reconcileF (childPath p k) node (some v) = .ok v := by
            rcases (Bool.or_eq_true _ _).mp hcv with hcanon | hnull
            · exact canon_fix node (childPath p k) v hwfn hcanon
            · simp only [Bool.and_eq_true, Option.isNone_iff_eq_none,
                Bool.not_eq_eq_eq_not, Bool.not_true] at hnull
              obtain ⟨⟨hreq, hdf⟩, hnul⟩ := hnull
              have hv : v = .null := by cases v <;> simp_all [isNullJ]
              subst hv
              exact reconcile_null_opt node (childPath p k) hreq hdf
          have htail0 : reconcileFields p tl ((k, v) :: rest) = reconcileFields p tl rest :=
            reconcileFields_skipHead p tl k v rest (by simpa using hnotin)
          have htail : reconcileFields p tl rest = .ok rest :=
            canonFields_fix tl p rest hdtl hwft hrest
          rw [reconcileFields, hlook, hhead, htail0, htail]
termination_by (sizeOf cs, sizeOf fields)

theorem canonElems_fix (elem : SchemaNode) (p : String) (els : List Json)
    (hwf : wfS elem = true) (h : canonElemsV elem els = true) :
    mapElems (fun el => reconcileF p elem (some el)) elem.dflt els = els := by
  cases els with
  | nil => simp [mapElems]
  | cons v tl =>
      simp only [canonElemsV, Bool.and_eq_true] at h
      obtain ⟨hcv, htl⟩ := h
      have hhead : reconcileF p elem (some v) = .ok v := by
        rcases (Bool.or_eq_true _ _).mp hcv with hcanon | hnull
        · exact canon_fix elem p v hwf hcanon
        · simp only [Bool.and_eq_true, Option.isNone_iff_eq_none,
            Bool.not_eq_eq_eq_not, Bool.not_true] at hnull
          obtain ⟨⟨hreq, hdf⟩, hnul⟩ := hnull
          have hv : v = .null := by cases v <;> simp_all [isNullJ]
          subst hv
          exact reconcile_null_opt elem p hreq hdf
      simp only [mapElems, hhead, canonElems_fix elem p tl hwf htl]
termination_by (sizeOf elem, 1 + sizeOf els)
end

theorem coerce_none_case (S : SchemaNode) (p : String) (v out : Json)
    (hwf : wfS S = true)
    (h : (match coercePrim S v with
          | some v2 => Except.ok v2
          | none => absentCase p S) = Except.ok out) :
    canonFieldV S out = true := by
  cases hc : coercePrim S v with
  | some w =>
      rw [hc] at h
      injection h with h
      subst h
      simp [canonFieldV, coerce_canon S v w hc]
  | none =>
      rw [hc] at h
      exact absent_canon S p out hwf h

mutual
theorem rec_canon (S : SchemaNode) (p : String) (v? : Option Json) (out : Json)
    (hwf : wfS S = true) (hok : reconcileF p S v? = .ok out) :
    canonFieldV S out = true := by
  cases v? with
  | none =>
      have h2 : absentCase p S = .ok out := by
        cases S <;> simpa [reconcileF] using hok
      exact absent_canon S p out hwf h2
  | some v =>
      cases S with
      | sObj r d cs =>
          cases v with
          | obj fields =>
              simp only [reconcileF] at hok
              cases hfs : reconcileFields p cs fields with
              | error e => rw [hfs] at hok; exact absurd hok (by simp)
              | ok fs =>
                  rw [hfs] at hok
                  simp only [Except.ok.injEq] at hok
                  subst hok
                  simp only [wfS, Bool.and_eq_true] at hwf
                  simp [canonFieldV, canonV,
                    rec_canon_fields cs p fields fs hwf.2 hfs]
          | null => exact coerce_none_case _ p .null out hwf (by simpa [reconcileF] using hok)
          | bool b => exact coerce_none_case _ p (.bool b) out hwf (by simpa [reconcileF] using hok)
          | num m e => exact coerce_none_case _ p (.num m e) out hwf (by simpa [reconcileF] using hok)
          | str s => exact coerce_none_case _ p (.str s) out hwf (by simpa [reconcileF] using hok)
          | arr els => exact coerce_none_case _ p (.arr els) out hwf (by simpa [reconcileF] using hok)
      | sArr r d elem =>
          cases v with
          | arr els =>
              simp only [reconcileF, Except.ok.injEq] at hok
              subst hok
              simp only [wfS, Bool.and_eq_true] at hwf
              simp [canonFieldV, canonV, rec_canon_elems elem p els hwf.2]
          | null => exact coerce_none_case _ p .null out hwf (by simpa [reconcileF] using hok)
          | bool b => exact coerce_none_case _ p (.bool b) out hwf (by simpa [reconcileF] using hok)
          | num m e => exact coerce_none_case _ p (.num m e) out hwf (by simpa [reconcileF] using hok)
          | str s => exact coerce_none_case _ p (.str s) out hwf (by simpa [reconcileF] using hok)
          | obj fs => exact coerce_none_case _ p (.obj fs) out hwf (by simpa [reconcileF] using hok)
      | sStr r d => exact coerce_none_case _ p v out hwf (by simpa [reconcileF] using hok)
      | sInt r d => exact coerce_none_case _ p v out hwf (by simpa [reconcileF] using hok)
      | sBool r d => exact coerce_none_case _ p v out hwf (by simpa [reconcileF] using hok)
      | sEnum r d allowed => exact coerce_none_case _ p v out hwf (by simpa [reconcileF] using hok)
termination_by (sizeOf S, sizeOf v?)

theorem rec_canon_fields (cs : SchemaFields) (p : String)
    (fields fs : List (String × Json)) (hwf : wfFields cs = true)
    (hok : reconcileFields p cs fields = .ok fs) :
    canonFieldsV cs fs = true := by
  cases cs with
  | fnil =>
      simp only [reconcileFields, Except.ok.injEq] at hok
      subst hok
      rfl
  | fcons name node tl =>
      simp only [wfFields, Bool.and_eq_true] at hwf
      obtain ⟨hwfn, hwft⟩ := hwf
      simp only [reconcileFields] at hok
      cases hf : reconcileF (childPath p name) node (lookupField fields name) with
      | error e => rw [hf] at hok; exact absurd hok (by simp)
      | ok v =>
          rw [hf] at hok
          cases ht : reconcileFields p tl fields with
          | error e => rw [ht] at hok; exact absurd hok (by simp)
          | ok rest =>
              rw [ht] at hok
              simp only [Except.ok.injEq] at hok
              subst hok
              simp only [canonFieldsV, Bool.and_eq_true, beq_iff_eq]
              refine ⟨⟨trivial, ?_⟩, rec_canon_fields tl p fields rest hwft ht⟩
              simpa [canonFieldV] using rec_canon node (childPath p name) _ v hwfn hf
termination_by (sizeOf cs, sizeOf fields)

theorem rec_canon_elems (elem : SchemaNode) (p : String) (els : List Json)
    (hwf : wfS elem = true) :
    canonElemsV elem
      (mapElems (fun el => reconcileF p elem (some el)) elem.dflt els) = true := by
  cases els with
  | nil => rfl
  | cons v tl =>
      have ih := rec_canon_elems elem p tl hwf
      cases hf : reconcileF p elem (some v) with
      | ok w =>
          simp only [mapElems, hf]
          simp only [canonElemsV, Bool.and_eq_true]
          exact ⟨by simpa [canonFieldV] using rec_canon elem p (some v) w hwf hf, ih⟩
      | error e =>
          cases hd : elem.dflt with
          | some dv =>
              rw [hd] at ih
              simp only [mapElems, hf, hd]
              simp only [canonElemsV, Bool.and_eq_true]
              have hcd : canonV elem dv = true := by
                have hh := wfS_dfltOk elem hwf
                unfold dfltOkB at hh
                rw [hd] at hh
                exact hh
              exact ⟨by simp [hcd], ih⟩
          | none =>
              rw [hd] at ih
              simpa only [mapElems, hf, hd] using ih
termination_by (sizeOf elem, 1 + sizeOf els)
end

/-- Successful reconciliation is idempotent: re-reconciling an output
record is the identity (spec section 8). -/
theorem reconcile_idem (S : SchemaNode) (p : String) (R v : Json)
    (hwf : wfS S = true) (h : reconcileF p S (some R) = .ok v) :
    reconcileF p S (some v) = .ok v := by
  have hc := rec_canon S p (some R) v hwf h
  unfold canonFieldV at hc
  rcases (Bool.or_eq_true _ _).mp hc with hcanon | hnull
  · exact canon_fix S p v hwf hcanon
  · simp only [Bool.and_eq_true, Option.isNone_iff_eq_none,
      Bool.not_eq_eq_eq_not, Bool.not_true] at hnull
    obtain ⟨⟨hreq, hdf⟩, hnul⟩ := hnull
    have hv : v = .null := by cases v <;> simp_all [isNullJ]
    subst hv
    exact reconcile_null_opt S p hreq hdf

/-! ## Removal of a required field (missing-required-field lemmas)

`schemaAt` locates the schema node at a dotted path (descending object
children); `removeAt` removes the field at that path from a raw input;
`noDupAlong` asserts duplicate-free object keys along the path (always
true of objects produced by `json.loads`). Removing a required,
default-free field from an input that reconciled successfully makes
reconciliation fail with `MissingRequiredField` naming exactly that
path. -/

def schemaChild : SchemaFields → String → Option SchemaNode
  | .fnil, _ => none
  | .fcons n node tl, name => if n = name then some node else schemaChild tl name

def schemaAt : SchemaNode → List String → Option SchemaNode
  | S, [] => some S
  | .sObj _ _ cs, name :: rest =>
      match schemaChild cs name with
      | some node => schemaAt node rest
      | none => none
  | _, _ :: _ => none

def removeKey : List (String × Json) → String → Option (List (String × Json))
  | [], _ => none
  | (k, v) :: tl, name =>
      if k = name then some tl
      else (removeKey tl name).map (fun r => (k, v) :: r)

def setKey : List (String × Json) → String → Json → List (String × Json)
  | [], _, _ => []
  | (k, v) :: tl, name, nv =>
      if k = name then (k, nv) :: tl else (k, v) :: setKey tl name nv

def removeAt : Json → List String → Option Json
  | .obj fields, name :: rest =>
      match rest with
      | [] => (removeKey fields name).map Json.obj
      | _ :: _ =>
          match lookupField fields name with
          | some v => (removeAt v rest).map (fun v2 => Json.obj (setKey fields name v2))
          | none => none
  | _, _ => none

def keyOnce : List (String × Json) → String → Bool
  | [], _ => true
  | (k, _) :: tl, name =>
      if k = name then (lookupField tl name).isNone else keyOnce tl name

def noDupAlong : Json → List String → Bool
  | _, [] => true
  | .obj fields, name :: rest =>
      keyOnce fields name &&
        (match lookupField fields name with
         | some v => noDupAlong v rest
         | none => true)
  | _, _ :: _ => true

def dottedFrom (p : String) : List String → String
  | [] => p
  | name :: rest => dottedFrom (childPath p name) rest

theorem lookup_removeKey_self (fields fields' : List (String × Json)) (name : String)
    (honce : keyOnce fields name = true)
    (h : removeKey fields name = some fields') :
    lookupField fields' name = none := by
  induction fields generalizing fields' with
  | nil => simp [removeKey] at h
  | cons kv tl ih =>
      obtain ⟨k, v⟩ := kv
      simp only [removeKey] at h
      simp only [keyOnce] at honce
      by_cases hk : k = name
      · rw [if_pos hk] at h honce
        injection h with h
        subst h
        simpa [Option.isNone_iff_eq_none] using honce
      · rw [if_neg hk] at h honce
        cases hr : removeKey tl name with
        | none => rw [hr] at h; exact absurd h (by simp)
        | some r =>
            rw [hr] at h
            simp only [Option.map, Option.some.injEq] at h
            subst h
            simp only [lookupField, if_neg hk]
            exact ih r honce hr

theorem lookup_removeKey_other (fields fields' : List (String × Json)) (name k : String)
    (hk : k ≠ name) (h : removeKey fields name = some fields') :
    lookupField fields' k = lookupField fields k := by
  induction fields generalizing fields' with
  | nil => simp [removeKey] at h
  | cons kv tl ih =>
      obtain ⟨k0, v0⟩ := kv
      simp only [removeKey] at h
      by_cases hk0 : k0 = name
      · rw [if_pos hk0] at h
        injection h with h
        subst h
        have hne : k0 ≠ k := by rw [hk0]; exact fun hc => hk hc.symm
        simp only [lookupField, if_neg hne]
      · rw [if_neg hk0] at h
        cases hr : removeKey tl name with
        | none => rw [hr] at h; exact absurd h (by simp)
        | some r =>
            rw [hr] at h
            simp only [Option.map, Option.some.injEq] at h
            subst h
            simp only [lookupField]
            by_cases hkk : k0 = k
            · simp [hkk]
            · rw [if_neg hkk, if_neg hkk]
              exact ih r hr

theorem lookup_setKey_self (fields : List (String × Json)) (name : String)
    (v0 nv : Json) (hlook : lookupField fields name = some v0) :
    lookupField (setKey fields name nv) name = some nv := by
  induction fields with
  | nil => simp [lookupField] at hlook
  | cons kv tl ih =>
      obtain ⟨k, v⟩ := kv
      simp only [lookupField] at hlook
      by_cases hk : k = name
      · simp [setKey, hk, lookupField]
      · rw [if_neg hk] at hlook
        simp only [setKey, if_neg hk, lookupField, if_neg hk]
        exact ih hlook

theorem lookup_setKey_other (fields : List (String × Json)) (name k : String)
    (nv : Json) (hk : k ≠ name) :
    lookupField (setKey fields name nv) k = lookupField fields k := by
  induction fields with
  | nil => simp [setKey]
  | cons kv tl ih =>
      obtain ⟨k0, v0⟩ := kv
      by_cases hk0 : k0 = name
      · subst hk0
        simp only [setKey, if_pos rfl, lookupField]
        rw [if_neg (by exact fun hc => hk hc.symm),
          if_neg (by exact fun hc => hk hc.symm)]
      · simp only [setKey, if_neg hk0, lookupField]
        by_cases hkk : k0 = k
        · simp [hkk]
        · rw [if_neg hkk, if_neg hkk]
          exact ih

theorem reconcileF_absent_req (S : SchemaNode) (p : String)
    (hreq : S.required = true) (hdf : S.dflt = none) :
    reconcileF p S none = .error (.missingRequiredField p) := by
  cases S <;>
    simp_all [reconcileF, absentCase, SchemaNode.required, SchemaNode.dflt]

theorem reconcileFields_ok_child (cs : SchemaFields) (p name : String)
    (node : SchemaNode) (fields fs : List (String × Json))
    (hchild : schemaChild cs name = some node)
    (hok : reconcileFields p cs fields = .ok fs) :
    ∃ w, reconcileF (childPath p name) node (lookupField fields name) = .ok w := by
  cases cs with
  | fnil => simp [schemaChild] at hchild
  | fcons n nd tl =>
      simp only [schemaChild] at hchild
      simp only [reconcileFields] at hok
      cases hf : reconcileF (childPath p n) nd (lookupField fields n) with
      | error e => rw [hf] at hok; exact absurd hok (by simp)
      | ok w =>
          rw [hf] at hok
          cases ht : reconcileFields p tl fields with
          | error e => rw [ht] at hok; exact absurd hok (by simp)
          | ok rest =>
              by_cases hn : n = name
              · subst hn
                rw [if_pos rfl] at hchild
                injection hchild with hchild
                subst hchild
                exact ⟨w, hf⟩
              · rw [if_neg hn] at hchild
                exact reconcileFields_ok_child tl p name node fields rest hchild ht

theorem reconcileFields_removed (cs : SchemaFields) (p name : String)
    (node : SchemaNode) (fields fields' fs : List (String × Json))
    (honce : keyOnce fields name = true)
    (hchild : schemaChild cs name = some node)
    (hreq : node.required = true) (hdf : node.dflt = none)
    (hrm : removeKey fields name = some fields')
    (hok : reconcileFields p cs fields = .ok fs) :
    reconcileFields p cs fields' = .error (.missingRequiredField (childPath p name)) := by
  cases cs with
  | fnil => simp [schemaChild] at hchild
  | fcons n nd tl =>
      simp only [schemaChild] at hchild
      simp only [reconcileFields] at hok ⊢
      by_cases hn : n = name
      · subst hn
        rw [if_pos rfl] at hchild
        injection hchild with hchild
        subst hchild
        rw [lookup_removeKey_self fields fields' n honce hrm,
          reconcileF_absent_req nd (childPath p n) hreq hdf]
      · rw [if_neg hn] at hchild
        rw [lookup_removeKey_other fields fields' name n hn hrm]
        cases hf : reconcileF (childPath p n) nd (lookupField fields n) with
        | error e => rw [hf] at hok; exact absurd hok (by simp)
        | ok w =>
            rw [hf] at hok
            cases ht : reconcileFields p tl fields with
            | error e => rw [ht] at hok; exact absurd hok (by simp)
            | ok rest =>
                rw [reconcileFields_removed tl p name node fields fields' rest
                  honce hchild hreq hdf hrm ht]

theorem reconcileFields_seterr (cs : SchemaFields) (p name : String)
    (node : SchemaNode) (fields fs : List (String × Json)) (v0 nv : Json) (e : RErr)
    (hlook : lookupField fields name = some v0)
    (hchild : schemaChild cs name = some node)
    (hok : reconcileFields p cs fields = .ok fs)
    (herr : reconcileF (childPath p name) node (some nv) = .error e) :
    reconcileFields p cs (setKey fields name nv) = .error e := by
  cases cs with
  | fnil => simp [schemaChild] at hchild
  | fcons n nd tl =>
      simp only [schemaChild] at hchild
      simp only [reconcileFields] at hok ⊢
      by_cases hn : n = name
      · subst hn
        rw [if_pos rfl] at hchild
        injection hchild with hchild
        subst hchild
        rw [lookup_setKey_self fields n v0 nv hlook, herr]
      · rw [if_neg hn] at hchild
        rw [lookup_setKey_other fields name n nv hn]
        cases hf : reconcileF (childPath p n) nd (lookupField fields n) with
        | error e2 => rw [hf] at hok; exact absurd hok (by simp)
        | ok w =>
            rw [hf] at hok
            cases ht : reconcileFields p tl fields with
            | error e2 => rw [ht] at hok; exact absurd hok (by simp)
            | ok rest =>
                rw [reconcileFields_seterr tl p name node fields rest v0 nv e
                  hlook hchild ht herr]

/-- Removing a required, default-free field (located by `path`) from an
input that reconciles successfully makes reconciliation fail with
`MissingRequiredField` naming exactly that field's dotted path, at any
nesting depth. -/
theorem reconcileF_removed (path : List String) (p : String) (S : SchemaNode)
    (R R' v : Json) (node : SchemaNode)
    (hnd : noDupAlong R path = true)
    (hok : reconcileF p S (some R) = .ok v)
    (hat : schemaAt S path = some node)
    (hreq : node.required = true) (hdf : node.dflt = none)
    (hrm : removeAt R path = some R') :
    reconcileF p S (some R') = .error (.missingRequiredField (dottedFrom p path)) := by
  cases path with
  | nil => cases R <;> simp [removeAt] at hrm
  | cons name rest =>
      cases S with
      | sObj r d cs =>
          cases R with
          | obj fields =>
              simp only [schemaAt] at hat
              cases hch : schemaChild cs name with
              | none => rw [hch] at hat; exact absurd hat (by simp)
              | some node0 =>
                  rw [hch] at hat
                  simp only [reconcileF] at hok
                  cases hfs : reconcileFields p cs fields with
                  | error e => rw [hfs] at hok; exact absurd hok (by simp)
                  | ok fs =>
                      simp only [noDupAlong, Bool.and_eq_true] at hnd
                      obtain ⟨honce, hnd2⟩ := hnd
                      cases rest with
                      | nil =>
                          simp only [schemaAt, Option.some.injEq] at hat
                          subst hat
                          simp only [removeAt] at hrm
                          cases hr : removeKey fields name with
                          | none => rw [hr] at hrm; exact absurd hrm (by simp)
                          | some fields' =>
                              rw [hr] at hrm
                              simp only [Option.map, Option.some.injEq] at hrm
                              subst hrm
                              have hrw := reconcileFields_removed cs p name node0 fields
                                fields' fs honce hch hreq hdf hr hfs
                              simp only [reconcileF, hrw, dottedFrom]
                      | cons r1 rrest =>
                          simp only [removeAt] at hrm
                          cases hlook : lookupField fields name with
                          | none => simp [hlook] at hrm
                          | some v0 =>
                              simp only [hlook] at hrm
                              cases hrr : removeAt v0 (r1 :: rrest) with
                              | none => simp [hrr] at hrm
                              | some v0' =>
                                  simp only [hrr, Option.map, Option.some.injEq] at hrm
                                  subst hrm
                                  simp only [hlook] at hnd2
                                  obtain ⟨w, hw⟩ :=
                                    reconcileFields_ok_child cs p name node0 fields fs hch hfs
                                  rw [hlook] at hw
                                  have herr :=
                                    reconcileF_removed (r1 :: rrest) (childPath p name) node0
                                      v0 v0' w node hnd2 hw hat hreq hdf hrr
                                  have hrw := reconcileFields_seterr cs p name node0 fields
                                    fs v0 v0'
                                    (.missingRequiredField
                                      (dottedFrom (childPath p name) (r1 :: rrest)))
                                    hlook hch hfs herr
                                  simp only [reconcileF, hrw, dottedFrom]
          | null => simp [removeAt] at hrm
          | bool b => simp [removeAt] at hrm
          | num m e => simp [removeAt] at hrm
          | str s => simp [removeAt] at hrm
          | arr els => simp [removeAt] at hrm
      | sStr r d => simp [schemaAt] at hat
      | sInt r d => simp [schemaAt] at hat
      | sBool r d => simp [schemaAt] at hat
      | sEnum r d allowed => simp [schemaAt] at hat
      | sArr r d elem => simp [schemaAt] at hat

/-! ## Dispatcher lemmas -/

/-- Common unfolding of `handle_message` once the task is a non-empty
string: binding and invocation depend only on the attribute resolved
for the normalized task name. -/
theorem handleMessage_resolved (attrs : List AgentAttr) (wrap : PyVal → PyVal)
    (oracle : TaskOracle) (message : List (String × PyVal)) (t : String) (a : AgentAttr)
    (h1 : lookupPy message "task" = some (.val (.str t)))
    (h2 : t ≠ "")
    (h3 : findAttr attrs (normalizeTask t) = some a) :
    handleMessageModel attrs wrap oracle message =
      (match a.callKind with
       | .value ty =>
          .ok (errDict ("Invalid parameters for task " ++ t ++ ": " ++
            pyQuote ty ++ " object is not callable"))
       | .method ps =>
          match bindingError (normalizeTask t) ps ((nonTaskParams message).map Prod.fst) with
          | some bmsg =>
              .ok (errDict ("Invalid parameters for task " ++ t ++ ": " ++ bmsg))
          | none =>
              match oracle (normalizeTask t) (nonTaskParams message) with
              | .ok r => .ok (wrap r)
              | .error (.typeError emsg) =>
                  .ok (errDict ("Invalid parameters for task " ++ t ++ ": " ++ emsg))
              | .error (.exn emsg) =>
                  .ok (errDict ("Error executing task " ++ t ++ ": " ++ emsg))) := by
  simp only [handleMessageModel, h1, pyTruthyV, jsonTruthy, h2, h3]
  simp [h2]

/-! ## Claim theorems -/

/-- C1: for every message whose task resolves to an existing handler
method, if the invoked handler body (including the reconciliation
parse function it calls, whose `ValueError`s arrive here as ordinary
exceptions) raises, `handle_message` catches it and returns the
`{"error": ...}` envelope — the result is `.ok`, so no exception
propagates to the caller. -/
theorem dispatcher_catches_handler_exceptions (attrs : List AgentAttr)
    (wrap : PyVal → PyVal) (oracle : TaskOracle) (message : List (String × PyVal))
    (t : String) (a : AgentAttr) (ps : List String) (e : BodyErr)
    (h1 : lookupPy message "task" = some (.val (.str t)))
    (h2 : t ≠ "")
    (h3 : findAttr attrs (normalizeTask t) = some a)
    (h4 : a.callKind = .method ps)
    (h5 : bindingError (normalizeTask t) ps ((nonTaskParams message).map Prod.fst) = none)
    (h6 : oracle (normalizeTask t) (nonTaskParams message) = .error e) :
    ∃ emsg, handleMessageModel attrs wrap oracle message = .ok (errDict emsg) := by
  rw [handleMessage_resolved attrs wrap oracle message t a h1 h2 h3]
  simp only [h4, h5, h6]
  cases e with
  | typeError m => exact ⟨_, rfl⟩
  | exn m => exact ⟨_, rfl⟩

theorem dispatcher_catches_handler_exceptions_witness :
    ∃ emsg, analyzerHandleMessage (fun _ _ => .error (.exn "boom"))
      [("task", .val (.str "analyze-error")), ("error_summary", .val .null),
       ("job_context", .val .null), ("log_statistics", .val .null),
       ("additional_context", .val .null)] = .ok (errDict emsg) :=
  dispatcher_catches_handler_exceptions analyzerAttrs wrapDict
    (fun _ _ => .error (.exn "boom"))
    [("task", .val (.str "analyze-error")), ("error_summary", .val .null),
     ("job_context", .val .null), ("log_statistics", .val .null),
     ("additional_context", .val .null)]
    "analyze-error"
    ⟨"analyze_error", .method
      ["error_summary", "job_context", "log_statistics", "additional_context"]⟩
    ["error_summary", "job_context", "log_statistics", "additional_context"]
    (.exn "boom") rfl (by decide) rfl rfl rfl rfl

/-- C2, counterexample: the task `"model"` is not a registered task
identifier of the analyzer, yet `handle_message` does not return the
Unknown-task envelope: `hasattr` finds the `self.model` data attribute
("gpt-4", a `str`), calling it raises `TypeError`, and the caller gets
the invalid-parameters envelope instead. -/
theorem dispatch_nontask_attribute_counterexample :
    analyzerTaskNames.contains "model" = false ∧
    isOkErrDict "Unknown task: model"
      (analyzerHandleMessage (fun _ _ => .ok (.val .null))
        [("task", .val (.str "model"))]) = false ∧
    analyzerHandleMessage (fun _ _ => .ok (.val .null))
        [("task", .val (.str "model"))] =
      .ok (errDict ("Invalid parameters for task model: " ++ pyQuote "str" ++
        " object is not callable")) :=
  ⟨rfl, rfl, rfl⟩

/-- C2, amended: for every message whose task value, after
hyphen-to-underscore normalization, names no attribute of the agent
object at all (neither a task method, nor a helper method, nor a data
attribute), `handle_message` returns the Unknown-task envelope and
nothing is invoked (the result does not depend on the method-body
oracle). -/
theorem unknown_task_envelope_without_attribute (attrs : List AgentAttr)
    (wrap : PyVal → PyVal) (oracle : TaskOracle) (message : List (String × PyVal))
    (t : String)
    (h1 : lookupPy message "task" = some (.val (.str t)))
    (h2 : t ≠ "")
    (h3 : findAttr attrs (normalizeTask t) = none) :
    handleMessageModel attrs wrap oracle message = .ok (errDict ("Unknown task: " ++ t)) := by
  simp only [handleMessageModel, h1, pyTruthyV, jsonTruthy, h3]
  simp [h2]

theorem unknown_task_envelope_without_attribute_witness :
    analyzerHandleMessage (fun _ _ => .ok (.val .null))
      [("task", .val (.str "not-a-task"))] =
      .ok (errDict "Unknown task: not-a-task") :=
  unknown_task_envelope_without_attribute analyzerAttrs wrapDict
    (fun _ _ => .ok (.val .null)) [("task", .val (.str "not-a-task"))]
    "not-a-task" rfl (by decide) rfl

/-- C5: dispatch resolves a task identifier through hyphen-to-
underscore normalization — the invoked handler is the one whose name
is the identifier with every `-` replaced by `_`; in particular
`"analyze-error"` resolves to `analyze_error`. -/
theorem hyphen_underscore_dispatch :
    (∀ (attrs : List AgentAttr) (wrap : PyVal → PyVal) (oracle : TaskOracle)
       (message : List (String × PyVal)) (t : String) (a : AgentAttr) (ps : List String),
       lookupPy message "task" = some (.val (.str t)) → t ≠ "" →
       findAttr attrs (normalizeTask t) = some a → a.callKind = .method ps →
       bindingError (normalizeTask t) ps ((nonTaskParams message).map Prod.fst) = none →
       handleMessageModel attrs wrap oracle message =
         (match oracle (normalizeTask t) (nonTaskParams message) with
          | .ok r => .ok (wrap r)
          | .error (.typeError emsg) =>
              .ok (errDict ("Invalid parameters for task " ++ t ++ ": " ++ emsg))
          | .error (.exn emsg) =>
              .ok (errDict ("Error executing task " ++ t ++ ": " ++ emsg)))) ∧
    normalizeTask "analyze-error" = "analyze_error" := by
  constructor
  · intro attrs wrap oracle message t a ps h1 h2 h3 h4 h5
    rw [handleMessage_resolved attrs wrap oracle message t a h1 h2 h3]
    simp only [h4, h5]
  · rfl

theorem hyphen_underscore_dispatch_witness :
    analyzerHandleMessage (fun _ _ => .ok (.model "Analyze_ErrorOutput" (.obj [])))
      [("task", .val (.str "analyze-error")), ("error_summary", .val .null),
       ("job_context", .val .null), ("log_statistics", .val .null),
       ("additional_context", .val .null)] = .ok (.val (.obj [])) :=
  hyphen_underscore_dispatch.1 analyzerAttrs wrapDict
    (fun _ _ => .ok (.model "Analyze_ErrorOutput" (.obj [])))
    [("task", .val (.str "analyze-error")), ("error_summary", .val .null),
     ("job_context", .val .null), ("log_statistics", .val .null),
     ("additional_context", .val .null)]
    "analyze-error"
    ⟨"analyze_error", .method
      ["error_summary", "job_context", "log_statistics", "additional_context"]⟩
    ["error_summary", "job_context", "log_statistics", "additional_context"]
    rfl (by decide) rfl rfl rfl

/-- C6: a parameter mapping with a key outside the resolved handler's
declared parameter names, or missing a declared parameter (none of the
bound methods has defaults), raises `TypeError` at keyword binding;
`handle_message` returns the invalid-parameters envelope, and the
handler body is never executed (the result does not depend on the
method-body oracle). -/
theorem invalid_parameters_rejected_before_invocation (attrs : List AgentAttr)
    (wrap : PyVal → PyVal) (oracle : TaskOracle) (message : List (String × PyVal))
    (t : String) (a : AgentAttr) (ps : List String) (bmsg : String)
    (h1 : lookupPy message "task" = some (.val (.str t)))
    (h2 : t ≠ "")
    (h3 : findAttr attrs (normalizeTask t) = some a)
    (h4 : a.callKind = .method ps)
    (h5 : bindingError (normalizeTask t) ps ((nonTaskParams message).map Prod.fst) =
      some bmsg) :
    handleMessageModel attrs wrap oracle message =
      .ok (errDict ("Invalid parameters for task " ++ t ++ ": " ++ bmsg)) := by
  rw [handleMessage_resolved attrs wrap oracle message t a h1 h2 h3]
  simp only [h4, h5]

theorem invalid_parameters_rejected_before_invocation_witness :
    analyzerHandleMessage (fun _ _ => .ok (.val .null))
      [("task", .val (.str "analyze-error")), ("error_summary", .val .null),
       ("bogus", .val .null)] =
      .ok (errDict ("Invalid parameters for task analyze-error: " ++
        "analyze_error() got an unexpected keyword argument " ++ pyQuote "bogus")) :=
  invalid_parameters_rejected_before_invocation analyzerAttrs wrapDict
    (fun _ _ => .ok (.val .null))
    [("task", .val (.str "analyze-error")), ("error_summary", .val .null),
     ("bogus", .val .null)]
    "analyze-error"
    ⟨"analyze_error", .method
      ["error_summary", "job_context", "log_statistics", "additional_context"]⟩
    ["error_summary", "job_context", "log_statistics", "additional_context"]
    ("analyze_error() got an unexpected keyword argument " ++ pyQuote "bogus")
    rfl (by decide) rfl rfl rfl

/-- C10: a message whose "task" key is present but falsy (empty
string, `None`, `0`, `False`, empty containers) yields the
missing-required-field envelope, not an Unknown-task error, and no
attribute lookup or handler invocation happens (the result does not
depend on the attribute table or the oracle). -/
theorem falsy_task_missing_field_envelope (attrs : List AgentAttr)
    (wrap : PyVal → PyVal) (oracle : TaskOracle) (message : List (String × PyVal))
    (tv : PyVal)
    (h1 : lookupPy message "task" = some tv)
    (h2 : pyTruthyV tv = false) :
    handleMessageModel attrs wrap oracle message =
      .ok (errDict "Missing required field: task") := by
  simp [handleMessageModel, h1, h2]

theorem falsy_task_missing_field_envelope_witness :
    analyzerHandleMessage (fun _ _ => .ok (.val .null))
      [("task", .val (.str ""))] = .ok (errDict "Missing required field: task") :=
  falsy_task_missing_field_envelope analyzerAttrs wrapDict
    (fun _ _ => .ok (.val .null)) [("task", .val (.str ""))]
    (.val (.str "")) rfl rfl

/-- Concrete record returned by the collect-errors handler body in the
C7 evaluation. -/
def c7Record : Json := .obj [("error_summary", .str "E")]

def c7Oracle : TaskOracle := fun _ _ => .ok (.model "Collect_ErrorsOutput" c7Record)

def c7CollectMessage : List (String × PyVal) :=
  [("task", .val (.str "collect-errors")), ("job_name", .val (.str "build")),
   ("workflow_name", .val (.str "ci")), ("raw_logs", .val (.str "log text here")),
   ("job_step", .val (.str "compile")), ("repository", .val (.str "octo/repo")),
   ("branch", .val (.str "main")), ("commit_sha", .val (.str "abc")),
   ("pr_number", .val (.num 7 0))]

def c7ARecord : Json := .obj [("urgency_level", .str "low")]

def c7AOracle : TaskOracle := fun _ _ => .ok (.model "Analyze_ErrorOutput" c7ARecord)

def c7AnalyzeMessage : List (String × PyVal) :=
  [("task", .val (.str "analyze-error")), ("error_summary", .val (.obj [])),
   ("job_context", .val (.obj [])), ("log_statistics", .val (.obj [])),
   ("additional_context", .val (.obj []))]

/-- C7 (code evaluated at the failing input): on a successful
collect-errors dispatch the collector's `handle_message` returns
`json.dumps(...)` — a JSON *string*, not a mapping — although its own
signature declares `-> dict` and its failure paths return mappings;
the analyzer returns the mapping, and failure envelopes are mappings
with the `error` key. A caller testing for an `error` key cannot treat
the collector's success value as a mapping at all. -/
theorem collector_success_envelope_is_string :
    collectorHandleMessage c7Oracle c7CollectMessage =
      .ok (.val (.str (jsonSerialize c7Record))) ∧
    isMapping (.val (.str (jsonSerialize c7Record))) = false ∧
    analyzerHandleMessage c7AOracle c7AnalyzeMessage = .ok (.val c7ARecord) ∧
    isMapping (.val c7ARecord) = true ∧
    collectorHandleMessage c7Oracle [("task", .val (.str "nope"))] =
      .ok (errDict "Unknown task: nope") :=
  ⟨rfl, rfl, rfl, rfl, rfl⟩

/-! ## Reconciliation claim theorems -/

/-- The example schema of spec section 8:
`{analysis_result: {root_cause: string (required, no default),
confidence_level: string (default "unknown")}}`. -/
def specExampleSchema : SchemaNode :=
  .sObj true none (.fcons "analysis_result"
    (.sObj true none (.fcons "root_cause" (.sStr true none)
      (.fcons "confidence_level" (.sStr false (some (.str "unknown"))) .fnil))) .fnil)

/-- C3: reconciling `{"analysis_result": {}}` against the spec's
example schema (where `analysis_result.root_cause` is required with no
default) fails with `MissingRequiredField("analysis_result.root_cause")`;
and in general, removing any required default-free field (at any
nesting depth, located by `path`) from an input that reconciles
successfully makes reconciliation fail with `MissingRequiredField`
naming exactly that field's dotted path. -/
theorem missing_required_field_failure :
    (reconcile (Json.obj [("analysis_result", Json.obj [])]) specExampleSchema =
      .error (.missingRequiredField "analysis_result.root_cause")) ∧
    (∀ (path : List String) (S : SchemaNode) (R R' v : Json) (node : SchemaNode),
      noDupAlong R path = true →
      reconcile R S = .ok v →
      schemaAt S path = some node →
      node.required = true → node.dflt = none →
      removeAt R path = some R' →
      reconcile R' S = .error (.missingRequiredField (dottedFrom "" path))) :=
  ⟨rfl, fun path S R R' v node h1 h2 h3 h4 h5 h6 =>
    reconcileF_removed path "" S R R' v node h1 h2 h3 h4 h5 h6⟩

theorem missing_required_field_failure_witness :
    reconcile (Json.obj [("analysis_result", Json.obj [])]) specExampleSchema =
      .error (.missingRequiredField "analysis_result.root_cause") :=
  missing_required_field_failure.2 ["analysis_result", "root_cause"] specExampleSchema
    (Json.obj [("analysis_result", Json.obj [("root_cause", Json.str "OOM")])])
    (Json.obj [("analysis_result", Json.obj [])])
    (Json.obj [("analysis_result", Json.obj [("root_cause", Json.str "OOM"),
      ("confidence_level", Json.str "unknown")])])
    (SchemaNode.sStr true none) rfl rfl rfl rfl rfl rfl

/-- C4: a string input that is not valid strict JSON makes every one
of the six reconciliation parse functions fail at once with the
malformed-input `ValueError`, before any default substitution. -/
theorem malformed_input_rejected :
    ∀ s : String, jsonParse s = none →
      parse_analyze_error_output (.val (.str s)) = .error .malformedInput ∧
      parse_generate_pr_comment_output (.val (.str s)) = .error .malformedInput ∧
      parse_suggest_workflow_improvements_output (.val (.str s)) = .error .malformedInput ∧
      parse_collect_errors_output (.val (.str s)) = .error .malformedInput ∧
      parse_extract_build_info_output (.val (.str s)) = .error .malformedInput ∧
      parse_propose_remediation_output (.val (.str s)) = .error .malformedInput := by
  intro s h
  refine ⟨?_, ?_, ?_, ?_, ?_, ?_⟩ <;>
    simp [parse_analyze_error_output, parse_generate_pr_comment_output,
      parse_suggest_workflow_improvements_output, parse_collect_errors_output,
      parse_extract_build_info_output, parse_propose_remediation_output,
      parseOutputModel, h]

theorem malformed_input_rejected_witness :
    parse_analyze_error_output (.val (.str "this is not JSON")) = .error .malformedInput ∧
    parse_generate_pr_comment_output (.val (.str "this is not JSON")) = .error .malformedInput ∧
    parse_suggest_workflow_improvements_output (.val (.str "this is not JSON")) =
      .error .malformedInput ∧
    parse_collect_errors_output (.val (.str "this is not JSON")) = .error .malformedInput ∧
    parse_extract_build_info_output (.val (.str "this is not JSON")) = .error .malformedInput ∧
    parse_propose_remediation_output (.val (.str "this is not JSON")) =
      .error .malformedInput :=
  malformed_input_rejected "this is not JSON" rfl

/-- C9: each parse function is the identity on an instance of its
target output model class: the instance is returned unchanged by the
`isinstance` early return, with no JSON parsing, default substitution,
or validation — the equation holds for every instance data `j`, even
data that would not validate. -/
theorem parse_identity_on_model_instances :
    (∀ j : Json, parse_analyze_error_output (.model "Analyze_ErrorOutput" j) = .ok j) ∧
    (∀ j : Json, parse_generate_pr_comment_output (.model "Generate_Pr_CommentOutput" j) = .ok j) ∧
    (∀ j : Json,
      parse_suggest_workflow_improvements_output
        (.model "Suggest_Workflow_ImprovementsOutput" j) = .ok j) ∧
    (∀ j : Json, parse_collect_errors_output (.model "Collect_ErrorsOutput" j) = .ok j) ∧
    (∀ j : Json, parse_extract_build_info_output (.model "Extract_Build_InfoOutput" j) = .ok j) ∧
    (∀ j : Json, parse_propose_remediation_output (.model "Propose_RemediationOutput" j) = .ok j) :=
  ⟨fun _ => rfl, fun _ => rfl, fun _ => rfl, fun _ => rfl, fun _ => rfl, fun _ => rfl⟩

/-- C8: reconciliation through `parse_analyze_error_output` is
idempotent — for every raw input (string or mapping) on which it
succeeds, reconciling the serialized result record again returns the
same record unchanged. -/
theorem reconcile_roundtrip_idempotent :
    ∀ (j out : Json), parse_analyze_error_output (.val j) = .ok out →
      parse_analyze_error_output (.val out) = .ok out := by
  intro j out h
  have hwf : wfS analyzeErrorSchema = true := rfl
  have hstep : ∀ (j2 : Json),
      (match reconcile j2 analyzeErrorSchema with
       | .ok v => Except.ok v
       | .error e => Except.error (ParseErr.reconcileFailed e)) = .ok out →
      reconcile out analyzeErrorSchema = .ok out := by
    intro j2 hh
    cases hr : reconcile j2 analyzeErrorSchema with
    | error e => rw [hr] at hh; exact absurd hh (by simp)
    | ok w =>
        rw [hr] at hh
        simp only [Except.ok.injEq] at hh
        subst hh
        exact reconcile_idem analyzeErrorSchema "" j2 w hwf hr
  have hrec : reconcile out analyzeErrorSchema = .ok out := by
    cases j with
    | str s =>
        simp only [parse_analyze_error_output, parseOutputModel] at h
        cases hp : jsonParse s with
        | none => rw [hp] at h; exact absurd h (by simp)
        | some j2 =>
            rw [hp] at h
            exact hstep j2 h
    | null => exact hstep .null (by simpa [parse_analyze_error_output, parseOutputModel] using h)
    | bool b =>
        exact hstep (.bool b) (by simpa [parse_analyze_error_output, parseOutputModel] using h)
    | num m e =>
        exact hstep (.num m e) (by simpa [parse_analyze_error_output, parseOutputModel] using h)
    | arr els =>
        exact hstep (.arr els) (by simpa [parse_analyze_error_output, parseOutputModel] using h)
    | obj fs =>
        exact hstep (.obj fs) (by simpa [parse_analyze_error_output, parseOutputModel] using h)
  have hobj : ∃ fs, out = .obj fs := by
    cases out with
    | obj fs => exact ⟨fs, rfl⟩
    | null => simp [reconcile, reconcileF, analyzeErrorSchema, coercePrim, absentCase, SchemaNode.dflt, SchemaNode.required] at hrec
    | bool b => simp [reconcile, reconcileF, analyzeErrorSchema, coercePrim, absentCase, SchemaNode.dflt, SchemaNode.required] at hrec
    | num m e => simp [reconcile, reconcileF, analyzeErrorSchema, coercePrim, absentCase, SchemaNode.dflt, SchemaNode.required] at hrec
    | str s => simp [reconcile, reconcileF, analyzeErrorSchema, coercePrim, absentCase, SchemaNode.dflt, SchemaNode.required] at hrec
    | arr els => simp [reconcile, reconcileF, analyzeErrorSchema, coercePrim, absentCase, SchemaNode.dflt, SchemaNode.required] at hrec
  obtain ⟨fs, rfl⟩ := hobj
  simp only [parse_analyze_error_output, parseOutputModel, hrec]

/-- The record produced by reconciling the empty mapping with
`parse_analyze_error_output`: every top-level field comes from the
task's defaults dictionary. -/
def analyzeErrorDefaultRecord : Json :=
  .obj [("analysis_result", analysisResultDefault),
        ("recommended_fixes", .arr []),
        ("developer_message", developerMessageDefault),
        ("urgency_level", .str "how_default")]

theorem reconcile_roundtrip_idempotent_witness :
    parse_analyze_error_output (.val analyzeErrorDefaultRecord) =
      .ok analyzeErrorDefaultRecord :=
  reconcile_roundtrip_idempotent (Json.obj []) analyzeErrorDefaultRecord rfl
